import Mathlib

/-!
# Verification of the cloud-url-shortener storage and cache-aside core

Shallow embedding of the Redis-backed DAO layer of the `cloud-url-shortener`
repository:

* `ShortURLRedisDAO` (`insert` / `get` / `hit` / `count`) over url, monthly
  hits, and global-counter keys (`src/cloudshortener/dao/redis/short_url_redis_dao.py`);
* `UserRedisDAO.quota` (`src/cloudshortener/dao/redis/user_redis_dao.py`);
* `AppConfigCacheDAO` (`get` / `metadata` with `pull` / `force` flags and the
  `_warm_up_cache` batch) from `src/backend/cloudshortener/dao/cache/appconfig_cache_dao.py`;
* the key schemas (`RedisKeySchema`, `CacheKeySchema`) and
  `beginning_of_next_month` from `src/cloudshortener/utils/helpers.py`.

The Redis store is modelled as an association list from key strings to
entries carrying a value and an optional absolute expiry (epoch seconds).
Every multi-key DAO operation in the source runs inside one `MULTI`/`EXEC`
pipeline; in this sequential model a pipeline is simply the sequential
composition of its commands applied to one state with no interleaving.
-/

namespace CloudShortener

/-- A Redis value: Redis stores strings, but integer-valued strings support
`INCR`/`DECR`; we keep the two shapes apart so that arithmetic commands are
explicit about parsing. -/
inductive RVal where
  | str (s : String)
  | int (n : Int)
deriving DecidableEq, Repr

/-- The integer a Redis value parses to, when it does
(`DECR`/`INCR`/`INCRBY` fail on non-integer strings). -/
def RVal.asInt : RVal → Option Int
  | .str s => s.toInt?
  | .int n => some n

/-- One stored key: its value plus an optional absolute expiry
(epoch seconds); `none` means the key has no TTL. -/
structure Entry where
  val : RVal
  exp : Option Nat
deriving DecidableEq, Repr

/-- The Redis datastore: an association list from key to entry
(first binding wins; `write` keeps keys unique). -/
abbrev RedisState := List (String × Entry)

namespace RedisState

/-- Look up the entry stored at a key. -/
def lookup : RedisState → String → Option Entry
  | [], _ => none
  | (k', e) :: rest, k => if k' = k then some e else lookup rest k

/-- `EXISTS key` — whether the key is present. -/
def existsKey (s : RedisState) (k : String) : Bool :=
  (s.lookup k).isSome

/-- Unconditionally bind a key to an entry (overwriting any prior binding). -/
def write : RedisState → String → Entry → RedisState
  | [], k, e => [(k, e)]
  | (k', e') :: rest, k, e =>
      if k' = k then (k, e) :: rest else (k', e') :: write rest k e

/-- `SET key value [NX] [EX/EXAT …]` — the caller passes the absolute expiry
(`exat`, `none` for no TTL).  With `NX` against an existing key the command
is a no-op (value and TTL untouched); a plain `SET` replaces both the value
and the TTL (clearing the TTL when no expiry option is given). -/
def setCmd (s : RedisState) (k : String) (v : RVal) (nx : Bool)
    (exat : Option Nat) : RedisState :=
  if nx && s.existsKey k then s else s.write k ⟨v, exat⟩

/-- `GET key` — the stored value, `nil` when absent. -/
def getCmd (s : RedisState) (k : String) : Option RVal :=
  (s.lookup k).map (·.val)

/-- `TTL key` at wall-clock `now` — `-2` when the key is absent, `-1` when
it has no expiry, otherwise the remaining seconds. -/
def ttlCmd (s : RedisState) (k : String) (now : Nat) : Int :=
  match s.lookup k with
  | none => -2
  | some e =>
    match e.exp with
    | none => -1
    | some t => (t : Int) - (now : Int)

/-- `DECR key` — absent keys count as `0` (and the fresh key has no TTL);
an existing key keeps its TTL.  `none` models the `ResponseError` Redis
raises when the stored value is not an integer. -/
def decr (s : RedisState) (k : String) : Option (Int × RedisState) :=
  match s.lookup k with
  | none => some (-1, s.write k ⟨.int (-1), none⟩)
  | some e =>
    match e.val.asInt with
    | some n => some (n - 1, s.write k ⟨.int (n - 1), e.exp⟩)
    | none => none

/-- `INCRBY key by` — absent keys count as `0` (fresh key, no TTL); an
existing key keeps its TTL; `none` on a non-integer stored value. -/
def incrby (s : RedisState) (k : String) (by_ : Int) : Option (Int × RedisState) :=
  match s.lookup k with
  | none => some (by_, s.write k ⟨.int by_, none⟩)
  | some e =>
    match e.val.asInt with
    | some n => some (n + by_, s.write k ⟨.int (n + by_), e.exp⟩)
    | none => none

/-- `INCR key` = `INCRBY key 1`. -/
def incr (s : RedisState) (k : String) : Option (Int × RedisState) :=
  s.incrby k 1

/-- `EXPIRE key seconds` at wall-clock `now` — sets an absolute expiry of
`now + seconds` when the key exists, otherwise does nothing. -/
def expireCmd (s : RedisState) (k : String) (seconds : Nat) (now : Nat) : RedisState :=
  match s.lookup k with
  | none => s
  | some e => s.write k ⟨e.val, some (now + seconds)⟩

end RedisState

/-! ## Decimal rendering and calendar arithmetic

`natToDigits`/`natStr` embed Python's decimal rendering of non-negative
integers (used by f-strings and `strftime`); `UTCTime`/`timestamp` embed
timezone-aware `datetime` values and `datetime.timestamp()` for UTC
instants at or after the epoch. -/

/-- Decimal digit list of a natural number, with structural fuel so that
it reduces inside the kernel (most significant digit first). -/
def natToDigitsAux : Nat → Nat → List Char
  | 0, _ => []
  | fuel + 1, n =>
    if n < 10 then [Nat.digitChar n]
    else natToDigitsAux fuel (n / 10) ++ [Nat.digitChar (n % 10)]

/-- Decimal digit list of a natural number (`n + 1` fuel always suffices,
as each step divides by 10). -/
def natToDigits (n : Nat) : List Char :=
  natToDigitsAux (n + 1) n

/-- Decimal string of a natural number. -/
def natStr (n : Nat) : String :=
  ⟨natToDigits n⟩

/-- Decimal string of an integer (as Python renders `int`). -/
def intStr (n : Int) : String :=
  if n < 0 then "-" ++ natStr n.natAbs else natStr n.natAbs

/-- Zero-pad a number to two digits, as `strftime('%m')` does. -/
def pad2 (n : Nat) : String :=
  if n < 10 then "0" ++ natStr n else natStr n

/-- A timezone-aware UTC instant (what `datetime.now(UTC)` produces),
restricted to the fields the embedded code inspects. -/
structure UTCTime where
  year : Nat
  month : Nat
  day : Nat
  hour : Nat
  minute : Nat
  second : Nat
deriving DecidableEq, Repr

/-- Gregorian leap-year test. -/
def isLeap (y : Nat) : Bool :=
  (y % 4 == 0 && y % 100 != 0) || (y % 400 == 0)

/-- Days in the months strictly before month `m` of a non-leap year
(cumulative month lengths; `m` is 1-based). -/
def daysBeforeMonth (leap : Bool) (m : Nat) : Nat :=
  [0, 31, 59, 90, 120, 151, 181, 212, 243, 273, 304, 334].getD (m - 1) 0
    + (if leap && m > 2 then 1 else 0)

/-- Number of leap years in `[1, y]`. -/
def leapCount (y : Nat) : Nat :=
  y / 4 - y / 100 + y / 400

/-- Days from 1970-01-01 to the given civil date (dates from 1970 on). -/
def daysSinceEpoch (y m d : Nat) : Nat :=
  365 * (y - 1970) + (leapCount (y - 1) - leapCount 1969)
    + daysBeforeMonth (isLeap y) m + (d - 1)

/-- `datetime.timestamp()` for a UTC instant at or after the epoch,
in whole seconds. -/
def UTCTime.timestamp (t : UTCTime) : Nat :=
  daysSinceEpoch t.year t.month t.day * 86400
    + t.hour * 3600 + t.minute * 60 + t.second

/-- `strftime('%Y-%m')` — the month token used in monthly key names. -/
def monthStr (t : UTCTime) : String :=
  natStr t.year ++ "-" ++ pad2 t.month

/-- `beginning_of_next_month` (`src/cloudshortener/utils/helpers.py`): the
first moment (00:00:00 UTC) of the calendar month after `now`. -/
def beginning_of_next_month (now : UTCTime) : UTCTime :=
  let next_month := (now.month % 12) + 1
  let next_year := now.year + (if now.month == 12 then 1 else 0)
  ⟨next_year, next_month, 1, 0, 0, 0⟩

/-! ## Constants (`src/cloudshortener/utils/constants.py`) -/

def ONE_YEAR_SECONDS : Nat := 31536000

def ONE_MONTH_SECONDS : Nat := 2592000

def DEFAULT_LINK_HITS_QUOTA : Int := 10000

/-! ## Key schemas -/

/-- `RedisKeySchema` (`src/cloudshortener/dao/redis/redis_key_schema.py`):
standardized keys for the short-URL store, under an optional namespace
prefix.  Key methods that embed the current month take the clock as an
explicit argument (`date.today()` in the source). -/
structure RedisKeySchema where
  ns : Option String
deriving DecidableEq, Repr

namespace RedisKeySchema

/-- The `prefix_key` decorator: prepend `"{prefix}:"` when a prefix is set. -/
def prefixKey (ks : RedisKeySchema) (key : String) : String :=
  match ks.ns with
  | some p => p ++ ":" ++ key
  | none => key

def link_url_key (ks : RedisKeySchema) (short_code : String) : String :=
  ks.prefixKey ("links:" ++ short_code ++ ":url")

def link_hits_key (ks : RedisKeySchema) (today : UTCTime) (short_code : String) : String :=
  ks.prefixKey ("links:" ++ short_code ++ ":hits:" ++ monthStr today)

def counter_key (ks : RedisKeySchema) : String :=
  ks.prefixKey "links:counter"

def user_quota_key (ks : RedisKeySchema) (today : UTCTime) (user_id : String) : String :=
  ks.prefixKey ("users:" ++ user_id ++ ":quota:" ++ monthStr today)

end RedisKeySchema

/-- `CacheKeySchema` (`src/cloudshortener/dao/cache/cache_key_schema.py`):
AppConfig cache keys; the constructor prepends `cache:` to any prefix. -/
structure CacheKeySchema where
  ns : Option String
deriving DecidableEq, Repr

namespace CacheKeySchema

/-- Build the schema as `__init__` does: namespace `cache:{prefix}` when a
prefix is given, else no namespace. -/
def make (po : Option String) : CacheKeySchema :=
  ⟨po.map (fun p => "cache:" ++ p)⟩

def prefixKey (ks : CacheKeySchema) (key : String) : String :=
  match ks.ns with
  | some p => p ++ ":" ++ key
  | none => key

def appconfig_latest_key (ks : CacheKeySchema) : String :=
  ks.prefixKey "appconfig:latest"

def appconfig_latest_metadata_key (ks : CacheKeySchema) : String :=
  ks.prefixKey "appconfig:latest:metadata"

def appconfig_version_key (ks : CacheKeySchema) (version : Int) : String :=
  ks.prefixKey ("appconfig:v" ++ intStr version)

def appconfig_metadata_key (ks : CacheKeySchema) (version : Int) : String :=
  ks.prefixKey ("appconfig:v" ++ intStr version ++ ":metadata")

end CacheKeySchema

/-! ## DAO error taxonomy (`src/cloudshortener/dao/exceptions.py`)

Errors carry the piece of data the Python exception message is built from
(shortcode, user id, or cache-miss label); `responseError` stands for the
`redis.exceptions.ResponseError` the client raises when an arithmetic
command meets a non-integer value. -/

inductive DAOError where
  | shortURLNotFound (shortcode : String)
  | shortURLAlreadyExists (shortcode : String)
  | userDoesNotExist (userId : String)
  | cacheMiss (label : String)
  | responseError
deriving DecidableEq, Repr

/-- What the Redis client returns for `GET` of a stored value: everything
is a string on the wire (integers render in decimal). -/
def RVal.render : RVal → String
  | .str s => s
  | .int n => intStr n

/-- `ShortURLModel` (`src/cloudshortener/models/short_url_model.py`).
The Python dataclass annotates `hits` as `Optional[int]` but `get` passes
the raw client value through, so the field holds a raw Redis value here;
`expiresAt` is the epoch-second timestamp of the Python `datetime`. -/
structure ShortURLModel where
  target : String
  shortcode : String
  hits : Option RVal := none
  expiresAt : Option Int := none
deriving DecidableEq, Repr

/-! ## ShortURLRedisDAO (`src/cloudshortener/dao/redis/short_url_redis_dao.py`)

Each operation takes the key schema, the wall clock (`datetime.now(UTC)` /
`date.today()`), and the store state; it returns its Python return value
(or raised exception) together with the post state. -/

namespace ShortURLRedisDAO

/-- `insert`: fail with `ShortURLAlreadyExistsError` when the url key
exists; otherwise one transaction: `SET url EX 1y` and
`SET hits quota NX EXAT next-month`. -/
def insert (ks : RedisKeySchema) (now : UTCTime) (s : RedisState)
    (short_url : ShortURLModel) : Except DAOError Unit × RedisState :=
  let link_url_key := ks.link_url_key short_url.shortcode
  let link_hits_key := ks.link_hits_key now short_url.shortcode
  if s.existsKey link_url_key then
    (.error (.shortURLAlreadyExists short_url.shortcode), s)
  else
    let s1 := s.setCmd link_url_key (.str short_url.target) false
      (some (now.timestamp + ONE_YEAR_SECONDS))
    let s2 := s1.setCmd link_hits_key (.int DEFAULT_LINK_HITS_QUOTA) true
      (some (beginning_of_next_month now).timestamp)
    (.ok (), s2)

/-- `get`: one transaction reading `GET url`, `GET hits`, `TTL url`; raise
`ShortURLNotFoundError` when the url value is nil, else build the model
with `expires_at = now + timedelta(seconds=ttl)`. -/
def get (ks : RedisKeySchema) (now : UTCTime) (s : RedisState)
    (shortcode : String) : Except DAOError ShortURLModel :=
  let link_url_key := ks.link_url_key shortcode
  let link_hits_key := ks.link_hits_key now shortcode
  let original_url := s.getCmd link_url_key
  let hits := s.getCmd link_hits_key
  let ttl := s.ttlCmd link_url_key now.timestamp
  match original_url with
  | none => .error (.shortURLNotFound shortcode)
  | some v =>
      .ok { target := v.render, shortcode := shortcode, hits := hits,
            expiresAt := some ((now.timestamp : Int) + ttl) }

/-- `hit`: raise `ShortURLNotFoundError` when the url key is absent;
otherwise one transaction: `SET hits quota NX EXAT next-month` then
`DECR hits`, returning the post-decrement value. -/
def hit (ks : RedisKeySchema) (now : UTCTime) (s : RedisState)
    (shortcode : String) : Except DAOError Int × RedisState :=
  let link_url_key := ks.link_url_key shortcode
  let link_hits_key := ks.link_hits_key now shortcode
  if !s.existsKey link_url_key then
    (.error (.shortURLNotFound shortcode), s)
  else
    let s1 := s.setCmd link_hits_key (.int DEFAULT_LINK_HITS_QUOTA) true
      (some (beginning_of_next_month now).timestamp)
    match s1.decr link_hits_key with
    | some (leftover_hits, s2) => (.ok leftover_hits, s2)
    | none => (.error .responseError, s1)

/-- The value `count` produces: `INCR` returns an integer; a plain `GET`
returns the raw stored value, or Python `None` when the key is absent. -/
inductive CountResult where
  | int (n : Int)
  | raw (v : Option RVal)
deriving DecidableEq, Repr

/-- `count`: `INCR counter` when `increment` is set, else `GET counter`
(returned as-is, including `None` for an absent key). -/
def count (ks : RedisKeySchema) (s : RedisState) (increment : Bool) :
    Except DAOError CountResult × RedisState :=
  if increment then
    match s.incr ks.counter_key with
    | some (n, s') => (.ok (.int n), s')
    | none => (.error .responseError, s)
  else
    (.ok (.raw (s.getCmd ks.counter_key)), s)

end ShortURLRedisDAO

/-! ## UserRedisDAO (`src/cloudshortener/dao/redis/user_redis_dao.py`) -/

namespace UserRedisDAO

/-- `quota`: `INCRBY key 0` (get-or-create); when the resulting value is
exactly 0, a follow-up `EXPIRE key ONE_MONTH_SECONDS` is issued. -/
def quota (ks : RedisKeySchema) (now : UTCTime) (s : RedisState)
    (user_id : String) : Except DAOError Int × RedisState :=
  let user_quota_key := ks.user_quota_key now user_id
  match s.incrby user_quota_key 0 with
  | none => (.error .responseError, s)
  | some (monthly_quota, s1) =>
    if monthly_quota = 0 then
      (.ok monthly_quota, s1.expireCmd user_quota_key ONE_MONTH_SECONDS now.timestamp)
    else
      (.ok monthly_quota, s1)

/-- `increment_quota`: raise `UserDoesNotExistError` when the key is
absent, else `INCR` it. -/
def increment_quota (ks : RedisKeySchema) (now : UTCTime) (s : RedisState)
    (user_id : String) : Except DAOError Int × RedisState :=
  let user_quota_key := ks.user_quota_key now user_id
  if !s.existsKey user_quota_key then
    (.error (.userDoesNotExist user_id), s)
  else
    match s.incr user_quota_key with
    | some (n, s') => (.ok n, s')
    | none => (.error .responseError, s)

end UserRedisDAO

/-! ## AppConfigCacheDAO
(`src/backend/cloudshortener/dao/cache/appconfig_cache_dao.py`)

The JSON document type is a parameter `J` (an opaque parsed dictionary);
`dumps`/`loads` model `json.dumps`/`json.loads`, and the two fetchers model
one call to `_fetch_latest_appconfig` (resolving a version from the remote
source of truth) and `_fetch_appconfig v` (which always reports back the
requested version, as the source does).  The third component of each
operation's result counts the remote fetch calls performed. -/

structure AppConfigCtx (J : Type) where
  dumps : J → String
  loads : String → J
  fetchLatest : Int × J × J
  fetchVersion : Int → J × J

/-- The `version` argument: the string literal `'latest'` or an integer. -/
inductive VersionArg where
  | latest
  | num (v : Int)
deriving DecidableEq, Repr

/-- The label used in `CacheMissError` messages:
`'latest' if version == 'latest' else f'v{int(version)}'`. -/
def VersionArg.missLabel : VersionArg → String
  | .latest => "latest"
  | .num v => "v" ++ intStr v

def VersionArg.isLatest : VersionArg → Bool
  | .latest => true
  | .num _ => false

namespace AppConfigCacheDAO

variable {J : Type}

/-- `_warm_up_cache`: one transaction writing the versioned document and
metadata (with the DAO's TTL), plus the two `latest` duplicates when the
original request targeted `'latest'`. -/
def warm_up_cache (ctx : AppConfigCtx J) (cks : CacheKeySchema) (ttl : Nat)
    (now : Nat) (s : RedisState) (resolved_version : Int) (document metadata : J)
    (latest : Bool) : RedisState :=
  let content_key := cks.appconfig_version_key resolved_version
  let meta_key := cks.appconfig_metadata_key resolved_version
  let latest_key := cks.appconfig_latest_key
  let latest_meta_key := cks.appconfig_latest_metadata_key
  let document_json := ctx.dumps document
  let metadata_json := ctx.dumps metadata
  let s1 := s.setCmd content_key (.str document_json) false (some (now + ttl))
  let s2 := s1.setCmd meta_key (.str metadata_json) false (some (now + ttl))
  if latest then
    (s2.setCmd latest_key (.str document_json) false (some (now + ttl))).setCmd
      latest_meta_key (.str metadata_json) false (some (now + ttl))
  else
    s2

/-- `_pull_appconfig`: fetch (latest or a specific version), then warm the
cache, returning `(resolved_version, document, metadata)` and the state. -/
def pull_appconfig (ctx : AppConfigCtx J) (cks : CacheKeySchema) (ttl : Nat)
    (now : Nat) (s : RedisState) (version : VersionArg) :
    (Int × J × J) × RedisState :=
  let fetched := match version with
    | .latest => ctx.fetchLatest
    | .num v => (v, ctx.fetchVersion v)
  let s' := warm_up_cache ctx cks ttl now s fetched.1 fetched.2.1 fetched.2.2
    version.isLatest
  (fetched, s')

/-- `get(version, pull, force)`: force ⇒ fetch-and-warm unconditionally;
otherwise read the versioned (or latest) document key; hit ⇒ deserialize;
miss ⇒ `CacheMissError` when `pull` is off, else fetch-and-warm. -/
def get (ctx : AppConfigCtx J) (cks : CacheKeySchema) (ttl : Nat) (now : Nat)
    (s : RedisState) (version : VersionArg) (pull force : Bool) :
    Except DAOError J × RedisState × Nat :=
  if force then
    let r := pull_appconfig ctx cks ttl now s version
    (.ok r.1.2.1, r.2, 1)
  else
    let key := match version with
      | .latest => cks.appconfig_latest_key
      | .num v => cks.appconfig_version_key v
    match s.getCmd key with
    | some blob => (.ok (ctx.loads blob.render), s, 0)
    | none =>
      if !pull then
        (.error (.cacheMiss version.missLabel), s, 0)
      else
        let r := pull_appconfig ctx cks ttl now s version
        (.ok r.1.2.1, r.2, 1)

/-- `metadata(version, pull, force)`: same shape as `get` over the metadata
keys (its miss message is labelled `f'v{version} metadata'`). -/
def metadata (ctx : AppConfigCtx J) (cks : CacheKeySchema) (ttl : Nat) (now : Nat)
    (s : RedisState) (version : VersionArg) (pull force : Bool) :
    Except DAOError J × RedisState × Nat :=
  if force then
    let r := pull_appconfig ctx cks ttl now s version
    (.ok r.1.2.2, r.2, 1)
  else
    let key := match version with
      | .latest => cks.appconfig_latest_metadata_key
      | .num v => cks.appconfig_metadata_key v
    match s.getCmd key with
    | some blob => (.ok (ctx.loads blob.render), s, 0)
    | none =>
      if !pull then
        let raw := match version with
          | .latest => "latest"
          | .num v => intStr v
        (.error (.cacheMiss ("v" ++ raw ++ " metadata")), s, 0)
      else
        let r := pull_appconfig ctx cks ttl now s version
        (.ok r.1.2.2, r.2, 1)

end AppConfigCacheDAO

/-! ## Observation helpers used to state the claims -/

/-- Iterate `hit` `n` times at a fixed clock, keeping only the store state
(used by the concrete quota-depletion scenario). -/
def hitTimes (ks : RedisKeySchema) (now : UTCTime) (s : RedisState)
    (shortcode : String) : Nat → RedisState
  | 0 => s
  | n + 1 => hitTimes ks now (ShortURLRedisDAO.hit ks now s shortcode).2 shortcode n

/-- The integer value of the global counter key (0 when the key is absent,
matching what the next `INCR` would build on). -/
def counterVal (ks : RedisKeySchema) (s : RedisState) : Int :=
  ((s.lookup ks.counter_key).bind (fun e => e.val.asInt)).getD 0

/-- Whether the global counter key is absent or holds an integer-parsing
value (the states on which `INCR` succeeds). -/
def counterParses (ks : RedisKeySchema) (s : RedisState) : Bool :=
  match s.lookup ks.counter_key with
  | none => true
  | some e => e.val.asInt.isSome

/-! ## Lemmas about the store primitives -/

namespace RedisState

@[simp] theorem lookup_nil (k : String) : lookup [] k = none := rfl

theorem lookup_write_self (s : RedisState) (k : String) (e : Entry) :
    (s.write k e).lookup k = some e := by
  induction s with
  | nil => simp [write, lookup]
  | cons hd tl ih =>
    by_cases h : hd.1 = k <;> simp [write, lookup, h, ih]

theorem lookup_write_ne (s : RedisState) (k k' : String) (e : Entry)
    (h : k' ≠ k) : (s.write k' e).lookup k = s.lookup k := by
  induction s with
  | nil => simp [write, lookup, h]
  | cons hd tl ih =>
    by_cases h1 : hd.1 = k' <;> by_cases h2 : hd.1 = k <;>
      simp_all [write, lookup]

theorem lookup_setCmd_ne (s : RedisState) (k k' : String) (v : RVal)
    (nx : Bool) (exat : Option Nat) (h : k' ≠ k) :
    (s.setCmd k' v nx exat).lookup k = s.lookup k := by
  unfold setCmd
  split
  · rfl
  · exact lookup_write_ne s k k' _ h

theorem lookup_setCmd_self_absent (s : RedisState) (k : String) (v : RVal)
    (nx : Bool) (exat : Option Nat) (h : s.lookup k = none) :
    (s.setCmd k v nx exat).lookup k = some ⟨v, exat⟩ := by
  unfold setCmd existsKey
  rw [h]
  simp [lookup_write_self]

theorem setCmd_nx_existing (s : RedisState) (k : String) (v : RVal)
    (exat : Option Nat) (h : s.existsKey k = true) :
    s.setCmd k v true exat = s := by
  simp [setCmd, h]

theorem lookup_setCmd_false_self (s : RedisState) (k : String) (v : RVal)
    (exat : Option Nat) : (s.setCmd k v false exat).lookup k = some ⟨v, exat⟩ := by
  unfold setCmd
  simp [lookup_write_self]

end RedisState

/-! ## Lemmas about decimal rendering -/

theorem natToDigits_ne_nil (n : Nat) : natToDigits n ≠ [] := by
  unfold natToDigits natToDigitsAux
  split <;> simp

theorem one_le_length_natStr (n : Nat) : 1 ≤ (natStr n).length := by
  have h : 0 < (natToDigits n).length := List.length_pos.mpr (natToDigits_ne_nil n)
  simpa [natStr, String.length] using h

theorem one_le_length_pad2 (n : Nat) : 1 ≤ (pad2 n).length := by
  unfold pad2
  split
  · rw [String.length_append]
    have h0 : "0".length = 1 := rfl
    have h1 := one_le_length_natStr n
    omega
  · exact one_le_length_natStr n

/-! ## Key-distinctness lemmas

The frame properties below ("writes exactly these keys") rest on the
generated key strings being pairwise distinct; these lemmas prove that for
every namespace prefix, shortcode, month, and version number. -/

theorem str_ne_of_data_ne {s₁ s₂ : String} (h : s₁.data ≠ s₂.data) : s₁ ≠ s₂ :=
  fun he => h (by rw [he])

theorem append_cons_ne_append_cons {pre x y : List Char} {a b : Char} (hab : a ≠ b) :
    pre ++ a :: x ≠ pre ++ b :: y := by
  intro h
  have h2 := List.append_cancel_left h
  injection h2 with h3 _
  exact hab h3

theorem ne_of_length_ne {s₁ s₂ : String} (h : s₁.length ≠ s₂.length) : s₁ ≠ s₂ :=
  fun he => h (by rw [he])

theorem CacheKeySchema.prefixKey_ne_cache (ks : CacheKeySchema) {a b : String} (h : a ≠ b) :
    ks.prefixKey a ≠ ks.prefixKey b := by
  cases ks with
  | mk ns =>
    cases ns with
    | none => simpa [CacheKeySchema.prefixKey] using h
    | some p =>
      simp only [CacheKeySchema.prefixKey]
      intro he
      apply h
      apply String.ext
      have hd : (p ++ ":" ++ a).data = (p ++ ":" ++ b).data := by rw [he]
      simp only [String.data_append, List.append_assoc] at hd
      exact List.append_cancel_left (List.append_cancel_left hd)

theorem RedisKeySchema.prefixKey_ne_redis (ks : RedisKeySchema) {a b : String} (h : a ≠ b) :
    ks.prefixKey a ≠ ks.prefixKey b := by
  cases ks with
  | mk ns =>
    cases ns with
    | none => simpa [RedisKeySchema.prefixKey] using h
    | some p =>
      simp only [RedisKeySchema.prefixKey]
      intro he
      apply h
      apply String.ext
      have hd : (p ++ ":" ++ a).data = (p ++ ":" ++ b).data := by rw [he]
      simp only [String.data_append, List.append_assoc] at hd
      exact List.append_cancel_left (List.append_cancel_left hd)

theorem appconfig_v_part_ne_latest_part (v : Int) :
    ("appconfig:v" ++ intStr v) ≠ "appconfig:latest" := by
  apply str_ne_of_data_ne
  have h1 : ("appconfig:v" ++ intStr v).data
      = "appconfig:".data ++ 'v' :: (intStr v).data := by
    rw [String.data_append]; rfl
  have h2 : ("appconfig:latest").data = "appconfig:".data ++ 'l' :: "atest".data := rfl
  rw [h1, h2]
  exact append_cons_ne_append_cons (by decide)

theorem appconfig_v_part_ne_latest_meta_part (v : Int) :
    ("appconfig:v" ++ intStr v) ≠ "appconfig:latest:metadata" := by
  apply str_ne_of_data_ne
  have h1 : ("appconfig:v" ++ intStr v).data
      = "appconfig:".data ++ 'v' :: (intStr v).data := by
    rw [String.data_append]; rfl
  have h2 : ("appconfig:latest:metadata").data
      = "appconfig:".data ++ 'l' :: "atest:metadata".data := rfl
  rw [h1, h2]
  exact append_cons_ne_append_cons (by decide)

theorem appconfig_vmeta_part_ne_latest_part (v : Int) :
    ("appconfig:v" ++ intStr v ++ ":metadata") ≠ "appconfig:latest" := by
  apply str_ne_of_data_ne
  have h1 : ("appconfig:v" ++ intStr v ++ ":metadata").data
      = "appconfig:".data ++ 'v' :: ((intStr v).data ++ ":metadata".data) := by
    rw [String.data_append, String.data_append]
    simp only [List.append_assoc]
    rfl
  have h2 : ("appconfig:latest").data = "appconfig:".data ++ 'l' :: "atest".data := rfl
  rw [h1, h2]
  exact append_cons_ne_append_cons (by decide)

theorem appconfig_vmeta_part_ne_latest_meta_part (v : Int) :
    ("appconfig:v" ++ intStr v ++ ":metadata") ≠ "appconfig:latest:metadata" := by
  apply str_ne_of_data_ne
  have h1 : ("appconfig:v" ++ intStr v ++ ":metadata").data
      = "appconfig:".data ++ 'v' :: ((intStr v).data ++ ":metadata".data) := by
    rw [String.data_append, String.data_append]
    simp only [List.append_assoc]
    rfl
  have h2 : ("appconfig:latest:metadata").data
      = "appconfig:".data ++ 'l' :: "atest:metadata".data := rfl
  rw [h1, h2]
  exact append_cons_ne_append_cons (by decide)

theorem appconfig_v_part_ne_vmeta_part (v : Int) :
    ("appconfig:v" ++ intStr v) ≠ ("appconfig:v" ++ intStr v ++ ":metadata") := by
  apply ne_of_length_ne
  simp only [String.length_append]
  have h9 : ":metadata".length = 9 := rfl
  omega

theorem appconfig_latest_part_ne_latest_meta_part :
    ("appconfig:latest" : String) ≠ "appconfig:latest:metadata" := by decide

namespace CacheKeySchema

theorem vkey_ne_latest (ks : CacheKeySchema) (v : Int) :
    ks.appconfig_version_key v ≠ ks.appconfig_latest_key :=
  ks.prefixKey_ne_cache (appconfig_v_part_ne_latest_part v)

theorem vkey_ne_latest_meta (ks : CacheKeySchema) (v : Int) :
    ks.appconfig_version_key v ≠ ks.appconfig_latest_metadata_key :=
  ks.prefixKey_ne_cache (appconfig_v_part_ne_latest_meta_part v)

theorem mkey_ne_latest (ks : CacheKeySchema) (v : Int) :
    ks.appconfig_metadata_key v ≠ ks.appconfig_latest_key :=
  ks.prefixKey_ne_cache (appconfig_vmeta_part_ne_latest_part v)

theorem mkey_ne_latest_meta (ks : CacheKeySchema) (v : Int) :
    ks.appconfig_metadata_key v ≠ ks.appconfig_latest_metadata_key :=
  ks.prefixKey_ne_cache (appconfig_vmeta_part_ne_latest_meta_part v)

theorem vkey_ne_mkey (ks : CacheKeySchema) (v : Int) :
    ks.appconfig_version_key v ≠ ks.appconfig_metadata_key v :=
  ks.prefixKey_ne_cache (appconfig_v_part_ne_vmeta_part v)

theorem latest_ne_latest_meta (ks : CacheKeySchema) :
    ks.appconfig_latest_key ≠ ks.appconfig_latest_metadata_key :=
  ks.prefixKey_ne_cache appconfig_latest_part_ne_latest_meta_part

end CacheKeySchema

theorem url_part_ne_counter_part (code : String) :
    ("links:" ++ code ++ ":url") ≠ "links:counter" := by
  intro he
  have hd : ("links:" ++ code ++ ":url").data = ("links:counter").data := by rw [he]
  rw [String.data_append, String.data_append] at hd
  have hc : ("links:counter").data = "links:".data ++ ("cou".data ++ "nter".data) := rfl
  rw [hc] at hd
  have h3 := @List.append_cancel_left _ ("links:".data) _ _ hd
  have h4 : ":url".data = "nter".data := (List.append_inj' h3 (by decide)).2
  exact absurd h4 (by decide)

theorem hits_part_ne_counter_part (code : String) (t : UTCTime) :
    ("links:" ++ code ++ ":hits:" ++ monthStr t) ≠ "links:counter" := by
  apply ne_of_length_ne
  simp only [String.length_append]
  have hl : "links:".length = 6 := rfl
  have hh : ":hits:".length = 6 := rfl
  have hc : "links:counter".length = 13 := rfl
  have hm : 3 ≤ (monthStr t).length := by
    unfold monthStr
    rw [String.length_append, String.length_append]
    have h1 := one_le_length_natStr t.year
    have h2 := one_le_length_pad2 t.month
    have hd : "-".length = 1 := rfl
    omega
  omega

namespace RedisKeySchema

theorem url_key_ne_counter_key (ks : RedisKeySchema) (code : String) :
    ks.link_url_key code ≠ ks.counter_key :=
  ks.prefixKey_ne_redis (url_part_ne_counter_part code)

theorem hits_key_ne_counter_key (ks : RedisKeySchema) (t : UTCTime) (code : String) :
    ks.link_hits_key t code ≠ ks.counter_key :=
  ks.prefixKey_ne_redis (hits_part_ne_counter_part code t)

end RedisKeySchema

/-! ## Frame lemmas for the arithmetic commands -/

namespace RedisState

theorem lookup_decr_ne (s : RedisState) (k k' : String) (n : Int) (s' : RedisState)
    (hne : k ≠ k') (hk : s.decr k = some (n, s')) :
    s'.lookup k' = s.lookup k' := by
  unfold decr at hk
  split at hk
  · cases hk
    exact lookup_write_ne s k' k _ hne
  · split at hk
    · cases hk
      exact lookup_write_ne s k' k _ hne
    · cases hk

theorem lookup_incrby_ne (s : RedisState) (k k' : String) (by_ n : Int) (s' : RedisState)
    (hne : k ≠ k') (hk : s.incrby k by_ = some (n, s')) :
    s'.lookup k' = s.lookup k' := by
  unfold incrby at hk
  split at hk
  · cases hk
    exact lookup_write_ne s k' k _ hne
  · split at hk
    · cases hk
      exact lookup_write_ne s k' k _ hne
    · cases hk

end RedisState

/-! ## Claims -/

/-- **C4.** For every record whose shortcode's url key already exists,
`insert(record)` raises `AlreadyExists` and performs no write at all: the
whole store state — in particular the existing hits key and the existing
url key (value and TTL) — is unchanged after the failed insert. -/
theorem insert_existing_raises_already_exists_no_write
    (ks : RedisKeySchema) (now : UTCTime) (s : RedisState) (record : ShortURLModel)
    (h : s.existsKey (ks.link_url_key record.shortcode) = true) :
    ShortURLRedisDAO.insert ks now s record
      = (.error (.shortURLAlreadyExists record.shortcode), s) ∧
    (ShortURLRedisDAO.insert ks now s record).2.lookup (ks.link_url_key record.shortcode)
      = s.lookup (ks.link_url_key record.shortcode) ∧
    (ShortURLRedisDAO.insert ks now s record).2.lookup (ks.link_hits_key now record.shortcode)
      = s.lookup (ks.link_hits_key now record.shortcode) := by
  unfold ShortURLRedisDAO.insert
  simp [h]

/-- Witness for C4 at a concrete single-key store. -/
theorem insert_existing_raises_already_exists_no_write_witness :
    ShortURLRedisDAO.insert ⟨none⟩ ⟨2025, 10, 15, 0, 0, 0⟩
        [("links:abc123:url", ⟨.str "https://example.com", none⟩)]
        { target := "https://other.com", shortcode := "abc123" }
      = (.error (.shortURLAlreadyExists "abc123"),
         [("links:abc123:url", ⟨.str "https://example.com", none⟩)]) :=
  (insert_existing_raises_already_exists_no_write ⟨none⟩ ⟨2025, 10, 15, 0, 0, 0⟩
    [("links:abc123:url", ⟨.str "https://example.com", none⟩)]
    { target := "https://other.com", shortcode := "abc123" } (by decide)).1

/-- **C5.** For every shortcode whose url key is absent, `get` and `hit`
both raise `NotFound`, and `hit` issues no write (the store state is
returned unchanged). -/
theorem get_hit_absent_url_raise_not_found
    (ks : RedisKeySchema) (now : UTCTime) (s : RedisState) (code : String)
    (h : s.lookup (ks.link_url_key code) = none) :
    ShortURLRedisDAO.get ks now s code = .error (.shortURLNotFound code) ∧
    ShortURLRedisDAO.hit ks now s code = (.error (.shortURLNotFound code), s) := by
  constructor
  · unfold ShortURLRedisDAO.get RedisState.getCmd
    simp [h]
  · unfold ShortURLRedisDAO.hit RedisState.existsKey
    simp [h]

/-- Witness for C5 on the empty store. -/
theorem get_hit_absent_url_raise_not_found_witness :
    ShortURLRedisDAO.get ⟨none⟩ ⟨2025, 10, 15, 0, 0, 0⟩ [] "abc123"
      = .error (.shortURLNotFound "abc123") ∧
    ShortURLRedisDAO.hit ⟨none⟩ ⟨2025, 10, 15, 0, 0, 0⟩ [] "abc123"
      = (.error (.shortURLNotFound "abc123"), []) :=
  get_hit_absent_url_raise_not_found ⟨none⟩ ⟨2025, 10, 15, 0, 0, 0⟩ [] "abc123" rfl

/-- **C6.** For every requested version (explicit integer or `latest`)
whose cache entry is absent, `get` with `pull=false` and `force=false`
raises `CacheMiss` labelled with the requested version or `latest`, calls
the remote fetcher zero times, and writes nothing to the cache. -/
theorem cache_get_miss_without_pull_raises_cache_miss {J : Type}
    (ctx : AppConfigCtx J) (cks : CacheKeySchema) (ttl now : Nat)
    (s : RedisState) (version : VersionArg)
    (h : s.lookup (match version with
          | VersionArg.latest => cks.appconfig_latest_key
          | VersionArg.num v => cks.appconfig_version_key v) = none) :
    AppConfigCacheDAO.get ctx cks ttl now s version false false
      = (.error (.cacheMiss version.missLabel), s, 0) ∧
    VersionArg.missLabel .latest = "latest" ∧
    (∀ v : Int, VersionArg.missLabel (.num v) = "v" ++ intStr v) := by
  refine ⟨?_, rfl, fun v => rfl⟩
  unfold AppConfigCacheDAO.get RedisState.getCmd
  cases version <;> simp_all

/-- Witness for C6 on the empty cache, for `latest` (with a fetcher that
would return version 7 were it called). -/
theorem cache_get_miss_without_pull_raises_cache_miss_witness :
    AppConfigCacheDAO.get (J := String) ⟨id, id, (7, "doc", "meta"), fun _ => ("d", "m")⟩
        (CacheKeySchema.make (some "cloudshortener:dev")) 604800 1000 [] .latest false false
      = (.error (.cacheMiss "latest"), [], 0) :=
  (cache_get_miss_without_pull_raises_cache_miss
    ⟨id, id, (7, "doc", "meta"), fun _ => ("d", "m")⟩
    (CacheKeySchema.make (some "cloudshortener:dev")) 604800 1000 [] .latest rfl).1

/-- **C8.** For every shortcode whose url key exists but whose monthly hits
key is absent, `get` succeeds (no `NotFound`) and returns the record with
`hits` null and `expiresAt` computed from the url key's TTL, all read from
the same state snapshot (the batched transaction). -/
theorem get_with_absent_hits_returns_null_hits
    (ks : RedisKeySchema) (now : UTCTime) (s : RedisState) (code : String) (e : Entry)
    (hurl : s.lookup (ks.link_url_key code) = some e)
    (hhits : s.lookup (ks.link_hits_key now code) = none) :
    ShortURLRedisDAO.get ks now s code
      = .ok { target := e.val.render, shortcode := code, hits := none,
              expiresAt := some ((now.timestamp : Int)
                + s.ttlCmd (ks.link_url_key code) now.timestamp) } := by
  unfold ShortURLRedisDAO.get RedisState.getCmd
  simp [hurl, hhits]

/-- Witness for C8: a store holding only the url key. -/
theorem get_with_absent_hits_returns_null_hits_witness :
    ShortURLRedisDAO.get ⟨none⟩ ⟨2025, 10, 15, 0, 0, 0⟩
        [("links:abc123:url", ⟨.str "https://example.com", some 1792022400⟩)] "abc123"
      = .ok { target := "https://example.com", shortcode := "abc123", hits := none,
              expiresAt := some 1792022400 } := by
  have h := get_with_absent_hits_returns_null_hits ⟨none⟩ ⟨2025, 10, 15, 0, 0, 0⟩
    [("links:abc123:url", ⟨.str "https://example.com", some 1792022400⟩)] "abc123"
    ⟨.str "https://example.com", some 1792022400⟩ (by decide) (by decide)
  rw [h]
  rfl

/-- **C10.** For every shortcode whose monthly hits key already exists
(with an integer value), `hit` leaves that key's expiry unchanged: the
`SET … NX` is a no-op on the existing key and the `DECR` preserves its
TTL, so the quota window established at initialization is never extended
or reset by further traffic. -/
theorem hit_existing_hits_preserves_expiry
    (ks : RedisKeySchema) (now : UTCTime) (s : RedisState) (code : String)
    (e : Entry) (n : Int)
    (hurl : s.existsKey (ks.link_url_key code) = true)
    (hhits : s.lookup (ks.link_hits_key now code) = some e)
    (hn : e.val.asInt = some n) :
    ShortURLRedisDAO.hit ks now s code
      = (.ok (n - 1), s.write (ks.link_hits_key now code) ⟨.int (n - 1), e.exp⟩) ∧
    (ShortURLRedisDAO.hit ks now s code).2.lookup (ks.link_hits_key now code)
      = some ⟨.int (n - 1), e.exp⟩ := by
  have hex : s.existsKey (ks.link_hits_key now code) = true := by
    simp [RedisState.existsKey, hhits]
  simp [ShortURLRedisDAO.hit, hurl, RedisState.setCmd_nx_existing s _ _ _ hex,
    RedisState.decr, hhits, hn, RedisState.lookup_write_self]

/-- Witness for C10: an existing hits key with value 9994 and expiry
1761955200 keeps its expiry across `hit`. -/
theorem hit_existing_hits_preserves_expiry_witness :
    ShortURLRedisDAO.hit ⟨none⟩ ⟨2025, 10, 20, 0, 0, 0⟩
        [("links:abc123:url", ⟨.str "https://example.com", some 1792022400⟩),
         ("links:abc123:hits:2025-10", ⟨.int 9994, some 1761955200⟩)] "abc123"
      = (.ok 9993,
         [("links:abc123:url", ⟨.str "https://example.com", some 1792022400⟩),
          ("links:abc123:hits:2025-10", ⟨.int 9993, some 1761955200⟩)]) := by
  have h := hit_existing_hits_preserves_expiry ⟨none⟩ ⟨2025, 10, 20, 0, 0, 0⟩
    [("links:abc123:url", ⟨.str "https://example.com", some 1792022400⟩),
     ("links:abc123:hits:2025-10", ⟨.int 9994, some 1761955200⟩)] "abc123"
    ⟨.int 9994, some 1761955200⟩ 9994 (by decide) (by decide) (by decide)
  rw [h.1]
  rfl

/-- **C3.** For every shortcode whose url key exists but whose monthly hits
key is absent, `hit` initializes the hits key to the default quota (10000)
with an absolute expiry at the first instant of the next calendar month in
UTC, decrements it, and returns `defaultQuota - 1`; and concretely, after
an `insert` at 2025-10-15 followed by nine `hit` calls the remaining hits
value is 9991. -/
theorem hit_untouched_month_initializes_quota
    (ks : RedisKeySchema) (now : UTCTime) (s : RedisState) (code : String)
    (hurl : s.existsKey (ks.link_url_key code) = true)
    (hhits : s.lookup (ks.link_hits_key now code) = none) :
    (ShortURLRedisDAO.hit ks now s code).1 = .ok (DEFAULT_LINK_HITS_QUOTA - 1) ∧
    (ShortURLRedisDAO.hit ks now s code).2.lookup (ks.link_hits_key now code)
      = some ⟨.int (DEFAULT_LINK_HITS_QUOTA - 1),
              some (beginning_of_next_month now).timestamp⟩ ∧
    DEFAULT_LINK_HITS_QUOTA = 10000 ∧
    (ShortURLRedisDAO.hit ⟨none⟩ ⟨2025, 10, 15, 0, 0, 0⟩
        (hitTimes ⟨none⟩ ⟨2025, 10, 15, 0, 0, 0⟩
          (ShortURLRedisDAO.insert ⟨none⟩ ⟨2025, 10, 15, 0, 0, 0⟩ []
            { target := "https://example.com/test", shortcode := "abc123" }).2
          "abc123" 8)
        "abc123").1 = .ok 9991 := by
  have hinit := RedisState.lookup_setCmd_self_absent s (ks.link_hits_key now code)
    (.int DEFAULT_LINK_HITS_QUOTA) true
    (some (beginning_of_next_month now).timestamp) hhits
  refine ⟨?_, ?_, rfl, rfl⟩ <;>
    simp [ShortURLRedisDAO.hit, hurl, RedisState.decr, hinit, RVal.asInt,
      RedisState.lookup_write_self]

/-- Witness for C3: a store holding only the url key, at 2025-10-15. -/
theorem hit_untouched_month_initializes_quota_witness :
    (ShortURLRedisDAO.hit ⟨none⟩ ⟨2025, 10, 15, 0, 0, 0⟩
        [("links:abc123:url", ⟨.str "https://example.com", some 1792022400⟩)]
        "abc123").1 = .ok 9999 ∧
    (ShortURLRedisDAO.hit ⟨none⟩ ⟨2025, 10, 15, 0, 0, 0⟩
        [("links:abc123:url", ⟨.str "https://example.com", some 1792022400⟩)]
        "abc123").2.lookup
      (RedisKeySchema.link_hits_key ⟨none⟩ ⟨2025, 10, 15, 0, 0, 0⟩ "abc123")
      = some ⟨.int 9999, some 1761955200⟩ := by
  have h := hit_untouched_month_initializes_quota ⟨none⟩ ⟨2025, 10, 15, 0, 0, 0⟩
    [("links:abc123:url", ⟨.str "https://example.com", some 1792022400⟩)]
    "abc123" (by decide) (by decide)
  exact ⟨h.1, (h.2.1).trans rfl⟩

/-- **C7 counterexample.** The one-month expiry on a user's monthly quota
key is *not* set exactly once: a second `quota` call one hour after the
initializing call still reads 0 and re-issues `EXPIRE`, moving the expiry
from 1763078400 (t₁ + one month) to 1763082000 (t₂ + one month). -/
theorem quota_second_call_resets_expiry :
    (UserRedisDAO.quota ⟨none⟩ ⟨2025, 10, 15, 0, 0, 0⟩ [] "user1").2.lookup
        "users:user1:quota:2025-10" = some ⟨.int 0, some 1763078400⟩ ∧
    (UserRedisDAO.quota ⟨none⟩ ⟨2025, 10, 15, 1, 0, 0⟩
        (UserRedisDAO.quota ⟨none⟩ ⟨2025, 10, 15, 0, 0, 0⟩ [] "user1").2
        "user1").2.lookup
        "users:user1:quota:2025-10" = some ⟨.int 0, some 1763082000⟩ ∧
    (1763082000 : Nat) ≠ 1763078400 := by
  refine ⟨rfl, rfl, by decide⟩

/-- **C7 (amended).** `quota` on an unseen user returns 0, never fails,
auto-initializes the counter to 0 and sets the one-month expiry; every
*subsequent* `quota` call that still reads 0 re-sets the expiry to one
month from that call (it is not set exactly once), while a call reading a
nonzero value leaves the expiry untouched. -/
theorem quota_zero_read_sets_expiry_each_time
    (ks : RedisKeySchema) (now : UTCTime) (user_id : String)
    (s₀ s₁ s₂ : RedisState) (e₁ e₂ : Entry) (n : Int)
    (h0 : s₀.lookup (ks.user_quota_key now user_id) = none)
    (h1 : s₁.lookup (ks.user_quota_key now user_id) = some e₁)
    (h1z : e₁.val.asInt = some 0)
    (h2 : s₂.lookup (ks.user_quota_key now user_id) = some e₂)
    (h2n : e₂.val.asInt = some n) (hn : n ≠ 0) :
    (UserRedisDAO.quota ks now s₀ user_id).1 = .ok 0 ∧
    (UserRedisDAO.quota ks now s₀ user_id).2.lookup (ks.user_quota_key now user_id)
      = some ⟨.int 0, some (now.timestamp + ONE_MONTH_SECONDS)⟩ ∧
    (UserRedisDAO.quota ks now s₁ user_id).1 = .ok 0 ∧
    (UserRedisDAO.quota ks now s₁ user_id).2.lookup (ks.user_quota_key now user_id)
      = some ⟨.int 0, some (now.timestamp + ONE_MONTH_SECONDS)⟩ ∧
    (UserRedisDAO.quota ks now s₂ user_id).1 = .ok n ∧
    (UserRedisDAO.quota ks now s₂ user_id).2.lookup (ks.user_quota_key now user_id)
      = some ⟨.int n, e₂.exp⟩ := by
  refine ⟨?_, ?_, ?_, ?_, ?_, ?_⟩
  · simp [UserRedisDAO.quota, RedisState.incrby, h0]
  · simp [UserRedisDAO.quota, RedisState.incrby, h0, RedisState.expireCmd,
      RedisState.lookup_write_self]
  · simp [UserRedisDAO.quota, RedisState.incrby, h1, h1z]
  · simp [UserRedisDAO.quota, RedisState.incrby, h1, h1z, RedisState.expireCmd,
      RedisState.lookup_write_self]
  · simp [UserRedisDAO.quota, RedisState.incrby, h2, h2n, hn]
  · simp [UserRedisDAO.quota, RedisState.incrby, h2, h2n, hn,
      RedisState.lookup_write_self]

/-- Witness for the amended C7 at concrete states (absent key, key holding
0 with an old expiry, key holding 5). -/
theorem quota_zero_read_sets_expiry_each_time_witness :
    (UserRedisDAO.quota ⟨none⟩ ⟨2025, 10, 15, 0, 0, 0⟩ [] "user1").1 = .ok 0 ∧
    (UserRedisDAO.quota ⟨none⟩ ⟨2025, 10, 15, 0, 0, 0⟩ [] "user1").2.lookup
        "users:user1:quota:2025-10" = some ⟨.int 0, some 1763078400⟩ ∧
    (UserRedisDAO.quota ⟨none⟩ ⟨2025, 10, 15, 0, 0, 0⟩
        [("users:user1:quota:2025-10", ⟨.int 0, some 42⟩)] "user1").1 = .ok 0 ∧
    (UserRedisDAO.quota ⟨none⟩ ⟨2025, 10, 15, 0, 0, 0⟩
        [("users:user1:quota:2025-10", ⟨.int 0, some 42⟩)] "user1").2.lookup
        "users:user1:quota:2025-10" = some ⟨.int 0, some 1763078400⟩ ∧
    (UserRedisDAO.quota ⟨none⟩ ⟨2025, 10, 15, 0, 0, 0⟩
        [("users:user1:quota:2025-10", ⟨.int 5, some 42⟩)] "user1").1 = .ok 5 ∧
    (UserRedisDAO.quota ⟨none⟩ ⟨2025, 10, 15, 0, 0, 0⟩
        [("users:user1:quota:2025-10", ⟨.int 5, some 42⟩)] "user1").2.lookup
        "users:user1:quota:2025-10" = some ⟨.int 5, some 42⟩ := by
  have h := quota_zero_read_sets_expiry_each_time ⟨none⟩ ⟨2025, 10, 15, 0, 0, 0⟩
    "user1" [] [("users:user1:quota:2025-10", ⟨.int 0, some 42⟩)]
    [("users:user1:quota:2025-10", ⟨.int 5, some 42⟩)]
    ⟨.int 0, some 42⟩ ⟨.int 5, some 42⟩ 5
    (by decide) (by decide) (by decide) (by decide) (by decide) (by decide)
  exact h

/-- **C9 counterexample.** A read of a never-incremented counter does not
return an integer value: on the empty store, `count(increment=false)`
returns the raw `GET` result `None` (nil), not an integer. -/
theorem count_read_never_incremented_returns_none :
    ShortURLRedisDAO.count ⟨none⟩ [] false
      = (.ok (.raw none), []) ∧
    ∀ n : Int, (ShortURLRedisDAO.count ⟨none⟩ [] false).1
      ≠ .ok (.raw (some (.int n))) := by
  refine ⟨rfl, fun n h => ?_⟩
  simp [ShortURLRedisDAO.count, RedisState.getCmd, RedisState.lookup] at h

/-- **C9 (amended).** `count(increment=true)` atomically increments the
single global counter and returns the new integer value;
`count(increment=false)` returns the raw stored value — `None` when the
counter key is absent — without touching the state; and the counter is
monotonically increasing across the store's operations: `insert` and `hit`
never touch the counter key, and `count` never decreases it. -/
theorem counterVal_of_lookup_none (ks : RedisKeySchema) (s : RedisState)
    (heq : s.lookup ks.counter_key = none) : counterVal ks s = 0 := by
  unfold counterVal
  rw [heq]
  rfl

theorem counterVal_of_lookup_some (ks : RedisKeySchema) (s : RedisState)
    (e : Entry) (m : Int) (heq : s.lookup ks.counter_key = some e)
    (hv : e.val.asInt = some m) : counterVal ks s = m := by
  unfold counterVal
  rw [heq]
  simp [hv]

theorem count_increments_and_counter_is_monotone
    (ks : RedisKeySchema) (s : RedisState)
    (h : counterParses ks s = true) :
    (ShortURLRedisDAO.count ks s true).1 = .ok (.int (counterVal ks s + 1)) ∧
    counterVal ks (ShortURLRedisDAO.count ks s true).2 = counterVal ks s + 1 ∧
    ShortURLRedisDAO.count ks s false = (.ok (.raw (s.getCmd ks.counter_key)), s) ∧
    (∀ (now : UTCTime) (s' : RedisState) (record : ShortURLModel),
       counterVal ks (ShortURLRedisDAO.insert ks now s' record).2 = counterVal ks s') ∧
    (∀ (now : UTCTime) (s' : RedisState) (code : String),
       counterVal ks (ShortURLRedisDAO.hit ks now s' code).2 = counterVal ks s') ∧
    (∀ (s' : RedisState) (increment : Bool),
       counterVal ks s' ≤ counterVal ks (ShortURLRedisDAO.count ks s' increment).2) := by
  have hkey : ∀ (sx : RedisState),
      (ShortURLRedisDAO.count ks sx true)
        = match sx.incr ks.counter_key with
          | some (n, sy) => (.ok (.int n), sy)
          | none => (.error .responseError, sx) := fun sx => rfl
  have main : (ShortURLRedisDAO.count ks s true).1 = .ok (.int (counterVal ks s + 1)) ∧
      counterVal ks (ShortURLRedisDAO.count ks s true).2 = counterVal ks s + 1 := by
    unfold counterParses at h
    cases heq : s.lookup ks.counter_key with
    | none =>
      have hi : s.incr ks.counter_key
          = some (1, s.write ks.counter_key ⟨.int 1, none⟩) := by
        unfold RedisState.incr RedisState.incrby
        rw [heq]
      have hafter : counterVal ks (s.write ks.counter_key ⟨.int 1, none⟩) = 1 :=
        counterVal_of_lookup_some ks _ ⟨.int 1, none⟩ 1
          (RedisState.lookup_write_self s ks.counter_key _) rfl
      rw [counterVal_of_lookup_none ks s heq, hkey, hi]
      exact ⟨rfl, hafter⟩
    | some e =>
      rw [heq] at h
      simp only [] at h
      obtain ⟨m, hv⟩ := Option.isSome_iff_exists.mp h
      have hi : s.incr ks.counter_key
          = some (m + 1, s.write ks.counter_key ⟨.int (m + 1), e.exp⟩) := by
        unfold RedisState.incr RedisState.incrby
        rw [heq]
        dsimp only
        rw [hv]
      have hafter : counterVal ks (s.write ks.counter_key ⟨.int (m + 1), e.exp⟩) = m + 1 :=
        counterVal_of_lookup_some ks _ ⟨.int (m + 1), e.exp⟩ (m + 1)
          (RedisState.lookup_write_self s ks.counter_key _) rfl
      rw [counterVal_of_lookup_some ks s e m heq hv, hkey, hi]
      exact ⟨rfl, hafter⟩
  refine ⟨main.1, main.2, rfl, ?_, ?_, ?_⟩
  · intro now s' record
    by_cases hex : s'.existsKey (ks.link_url_key record.shortcode) = true
    · simp [ShortURLRedisDAO.insert, hex]
    · simp only [Bool.not_eq_true] at hex
      simp only [ShortURLRedisDAO.insert, hex, Bool.false_eq_true, if_false]
      unfold counterVal
      rw [RedisState.lookup_setCmd_ne _ _ _ _ _ _ (ks.hits_key_ne_counter_key now record.shortcode),
          RedisState.lookup_setCmd_ne _ _ _ _ _ _ (ks.url_key_ne_counter_key record.shortcode)]
  · intro now s' code
    by_cases hex : s'.existsKey (ks.link_url_key code) = true
    · cases hd : (s'.setCmd (ks.link_hits_key now code) (.int DEFAULT_LINK_HITS_QUOTA) true
          (some (beginning_of_next_month now).timestamp)).decr (ks.link_hits_key now code) with
      | none =>
        simp only [ShortURLRedisDAO.hit, hex, Bool.not_true, Bool.false_eq_true, if_false, hd]
        unfold counterVal
        rw [RedisState.lookup_setCmd_ne _ _ _ _ _ _ (ks.hits_key_ne_counter_key now code)]
      | some p =>
        cases p with
        | mk pn ps =>
          simp only [ShortURLRedisDAO.hit, hex, Bool.not_true, Bool.false_eq_true, if_false, hd]
          unfold counterVal
          rw [RedisState.lookup_decr_ne _ _ ks.counter_key pn ps
                (ks.hits_key_ne_counter_key now code) hd,
              RedisState.lookup_setCmd_ne _ _ _ _ _ _ (ks.hits_key_ne_counter_key now code)]
    · simp only [Bool.not_eq_true] at hex
      simp [ShortURLRedisDAO.hit, hex]
  · intro s' increment
    cases increment with
    | false => simp [ShortURLRedisDAO.count]
    | true =>
      rw [hkey]
      cases heq : s'.lookup ks.counter_key with
      | none =>
        have hi : s'.incr ks.counter_key
            = some (1, s'.write ks.counter_key ⟨.int 1, none⟩) := by
          unfold RedisState.incr RedisState.incrby
          rw [heq]
        rw [hi]
        show counterVal ks s' ≤ counterVal ks (s'.write ks.counter_key ⟨.int 1, none⟩)
        rw [counterVal_of_lookup_none ks s' heq,
          counterVal_of_lookup_some ks _ ⟨.int 1, none⟩ 1
            (RedisState.lookup_write_self s' ks.counter_key _) rfl]
        omega
      | some e =>
        cases hv : e.val.asInt with
        | none =>
          have hi : s'.incr ks.counter_key = none := by
            unfold RedisState.incr RedisState.incrby
            rw [heq]
            dsimp only
            rw [hv]
          rw [hi]
        | some m =>
          have hi : s'.incr ks.counter_key
              = some (m + 1, s'.write ks.counter_key ⟨.int (m + 1), e.exp⟩) := by
            unfold RedisState.incr RedisState.incrby
            rw [heq]
            dsimp only
            rw [hv]
          rw [hi]
          show counterVal ks s'
            ≤ counterVal ks (s'.write ks.counter_key ⟨.int (m + 1), e.exp⟩)
          rw [counterVal_of_lookup_some ks s' e m heq hv,
            counterVal_of_lookup_some ks _ ⟨.int (m + 1), e.exp⟩ (m + 1)
              (RedisState.lookup_write_self s' ks.counter_key _) rfl]
          omega

/-- Witness for the amended C9 on the empty store. -/
theorem count_increments_and_counter_is_monotone_witness :
    (ShortURLRedisDAO.count ⟨none⟩ [] true).1 = .ok (.int (counterVal ⟨none⟩ [] + 1)) ∧
    counterVal ⟨none⟩ (ShortURLRedisDAO.count ⟨none⟩ [] true).2 = counterVal ⟨none⟩ [] + 1 ∧
    ShortURLRedisDAO.count ⟨none⟩ [] false
      = (.ok (.raw (RedisState.getCmd [] (RedisKeySchema.counter_key ⟨none⟩))), []) ∧
    (∀ (now : UTCTime) (s' : RedisState) (record : ShortURLModel),
       counterVal ⟨none⟩ (ShortURLRedisDAO.insert ⟨none⟩ now s' record).2 = counterVal ⟨none⟩ s') ∧
    (∀ (now : UTCTime) (s' : RedisState) (code : String),
       counterVal ⟨none⟩ (ShortURLRedisDAO.hit ⟨none⟩ now s' code).2 = counterVal ⟨none⟩ s') ∧
    (∀ (s' : RedisState) (increment : Bool),
       counterVal ⟨none⟩ s' ≤ counterVal ⟨none⟩ (ShortURLRedisDAO.count ⟨none⟩ s' increment).2) :=
  count_increments_and_counter_is_monotone ⟨none⟩ [] rfl

/-! ## The warm-up batch, characterized -/

/-- `_warm_up_cache` with `latest=true` writes exactly the four keys
(versioned document, versioned metadata, latest document, latest
metadata), the latest values being the same serialized strings as the
versioned ones, and leaves every other key untouched. -/
theorem warm_up_cache_latest_spec {J : Type} (ctx : AppConfigCtx J)
    (cks : CacheKeySchema) (ttl now : Nat) (s : RedisState) (rv : Int) (doc md : J) :
    (AppConfigCacheDAO.warm_up_cache ctx cks ttl now s rv doc md true).lookup
        (cks.appconfig_version_key rv)
      = some ⟨.str (ctx.dumps doc), some (now + ttl)⟩ ∧
    (AppConfigCacheDAO.warm_up_cache ctx cks ttl now s rv doc md true).lookup
        (cks.appconfig_metadata_key rv)
      = some ⟨.str (ctx.dumps md), some (now + ttl)⟩ ∧
    (AppConfigCacheDAO.warm_up_cache ctx cks ttl now s rv doc md true).lookup
        cks.appconfig_latest_key
      = some ⟨.str (ctx.dumps doc), some (now + ttl)⟩ ∧
    (AppConfigCacheDAO.warm_up_cache ctx cks ttl now s rv doc md true).lookup
        cks.appconfig_latest_metadata_key
      = some ⟨.str (ctx.dumps md), some (now + ttl)⟩ ∧
    (∀ k, k ≠ cks.appconfig_version_key rv → k ≠ cks.appconfig_metadata_key rv →
      k ≠ cks.appconfig_latest_key → k ≠ cks.appconfig_latest_metadata_key →
      (AppConfigCacheDAO.warm_up_cache ctx cks ttl now s rv doc md true).lookup k
        = s.lookup k) := by
  have hw : AppConfigCacheDAO.warm_up_cache ctx cks ttl now s rv doc md true
      = (((s.setCmd (cks.appconfig_version_key rv) (.str (ctx.dumps doc)) false
            (some (now + ttl))).setCmd
          (cks.appconfig_metadata_key rv) (.str (ctx.dumps md)) false
            (some (now + ttl))).setCmd
          cks.appconfig_latest_key (.str (ctx.dumps doc)) false
            (some (now + ttl))).setCmd
          cks.appconfig_latest_metadata_key (.str (ctx.dumps md)) false
            (some (now + ttl)) := rfl
  rw [hw]
  refine ⟨?_, ?_, ?_, ?_, ?_⟩
  · rw [RedisState.lookup_setCmd_ne _ _ _ _ _ _ (cks.vkey_ne_latest_meta rv).symm,
      RedisState.lookup_setCmd_ne _ _ _ _ _ _ (cks.vkey_ne_latest rv).symm,
      RedisState.lookup_setCmd_ne _ _ _ _ _ _ (cks.vkey_ne_mkey rv).symm,
      RedisState.lookup_setCmd_false_self]
  · rw [RedisState.lookup_setCmd_ne _ _ _ _ _ _ (cks.mkey_ne_latest_meta rv).symm,
      RedisState.lookup_setCmd_ne _ _ _ _ _ _ (cks.mkey_ne_latest rv).symm,
      RedisState.lookup_setCmd_false_self]
  · rw [RedisState.lookup_setCmd_ne _ _ _ _ _ _ cks.latest_ne_latest_meta.symm,
      RedisState.lookup_setCmd_false_self]
  · rw [RedisState.lookup_setCmd_false_self]
  · intro k h1 h2 h3 h4
    rw [RedisState.lookup_setCmd_ne _ _ _ _ _ _ (Ne.symm h4),
      RedisState.lookup_setCmd_ne _ _ _ _ _ _ (Ne.symm h3),
      RedisState.lookup_setCmd_ne _ _ _ _ _ _ (Ne.symm h2),
      RedisState.lookup_setCmd_ne _ _ _ _ _ _ (Ne.symm h1)]

/-- `_warm_up_cache` with `latest=false` writes exactly the two versioned
keys and leaves every other key — in particular the two latest keys —
untouched. -/
theorem warm_up_cache_versioned_spec {J : Type} (ctx : AppConfigCtx J)
    (cks : CacheKeySchema) (ttl now : Nat) (s : RedisState) (rv : Int) (doc md : J) :
    (AppConfigCacheDAO.warm_up_cache ctx cks ttl now s rv doc md false).lookup
        (cks.appconfig_version_key rv)
      = some ⟨.str (ctx.dumps doc), some (now + ttl)⟩ ∧
    (AppConfigCacheDAO.warm_up_cache ctx cks ttl now s rv doc md false).lookup
        (cks.appconfig_metadata_key rv)
      = some ⟨.str (ctx.dumps md), some (now + ttl)⟩ ∧
    (∀ k, k ≠ cks.appconfig_version_key rv → k ≠ cks.appconfig_metadata_key rv →
      (AppConfigCacheDAO.warm_up_cache ctx cks ttl now s rv doc md false).lookup k
        = s.lookup k) := by
  have hw : AppConfigCacheDAO.warm_up_cache ctx cks ttl now s rv doc md false
      = (s.setCmd (cks.appconfig_version_key rv) (.str (ctx.dumps doc)) false
            (some (now + ttl))).setCmd
          (cks.appconfig_metadata_key rv) (.str (ctx.dumps md)) false
            (some (now + ttl)) := rfl
  rw [hw]
  refine ⟨?_, ?_, ?_⟩
  · rw [RedisState.lookup_setCmd_ne _ _ _ _ _ _ (cks.vkey_ne_mkey rv).symm,
      RedisState.lookup_setCmd_false_self]
  · rw [RedisState.lookup_setCmd_false_self]
  · intro k h1 h2
    rw [RedisState.lookup_setCmd_ne _ _ _ _ _ _ (Ne.symm h2),
      RedisState.lookup_setCmd_ne _ _ _ _ _ _ (Ne.symm h1)]

/-- **C1.** A `get('latest')` that misses the cache with pull enabled
performs exactly one fetch, then one atomic warm-up batch writing exactly
4 keys — the versioned document, the versioned metadata, the `latest`
document and the `latest` metadata, the `latest` values byte-identical to
the versioned ones — and returns the fetched document. -/
theorem cache_get_latest_miss_with_pull_warms_four_keys {J : Type}
    (ctx : AppConfigCtx J) (cks : CacheKeySchema) (ttl now : Nat) (s : RedisState)
    (hmiss : s.lookup cks.appconfig_latest_key = none) :
    (AppConfigCacheDAO.get ctx cks ttl now s .latest true false).1
      = .ok ctx.fetchLatest.2.1 ∧
    (AppConfigCacheDAO.get ctx cks ttl now s .latest true false).2.2 = 1 ∧
    (AppConfigCacheDAO.get ctx cks ttl now s .latest true false).2.1.lookup
        (cks.appconfig_version_key ctx.fetchLatest.1)
      = some ⟨.str (ctx.dumps ctx.fetchLatest.2.1), some (now + ttl)⟩ ∧
    (AppConfigCacheDAO.get ctx cks ttl now s .latest true false).2.1.lookup
        (cks.appconfig_metadata_key ctx.fetchLatest.1)
      = some ⟨.str (ctx.dumps ctx.fetchLatest.2.2), some (now + ttl)⟩ ∧
    (AppConfigCacheDAO.get ctx cks ttl now s .latest true false).2.1.lookup
        cks.appconfig_latest_key
      = (AppConfigCacheDAO.get ctx cks ttl now s .latest true false).2.1.lookup
        (cks.appconfig_version_key ctx.fetchLatest.1) ∧
    (AppConfigCacheDAO.get ctx cks ttl now s .latest true false).2.1.lookup
        cks.appconfig_latest_metadata_key
      = (AppConfigCacheDAO.get ctx cks ttl now s .latest true false).2.1.lookup
        (cks.appconfig_metadata_key ctx.fetchLatest.1) ∧
    (∀ k, k ≠ cks.appconfig_version_key ctx.fetchLatest.1 →
      k ≠ cks.appconfig_metadata_key ctx.fetchLatest.1 →
      k ≠ cks.appconfig_latest_key → k ≠ cks.appconfig_latest_metadata_key →
      (AppConfigCacheDAO.get ctx cks ttl now s .latest true false).2.1.lookup k
        = s.lookup k) := by
  have hget : AppConfigCacheDAO.get ctx cks ttl now s .latest true false
      = (.ok ctx.fetchLatest.2.1,
         AppConfigCacheDAO.warm_up_cache ctx cks ttl now s ctx.fetchLatest.1
           ctx.fetchLatest.2.1 ctx.fetchLatest.2.2 true, 1) := by
    unfold AppConfigCacheDAO.get RedisState.getCmd
    dsimp only
    rw [hmiss]
    rfl
  have hspec := warm_up_cache_latest_spec ctx cks ttl now s ctx.fetchLatest.1
    ctx.fetchLatest.2.1 ctx.fetchLatest.2.2
  rw [hget]
  exact ⟨rfl, rfl, hspec.1, hspec.2.1,
    hspec.2.2.1.trans hspec.1.symm,
    hspec.2.2.2.1.trans hspec.2.1.symm,
    hspec.2.2.2.2⟩

/-- Witness for C1 on the empty cache, with a fetcher resolving `latest`
to version 7. -/
theorem cache_get_latest_miss_with_pull_warms_four_keys_witness :
    (AppConfigCacheDAO.get (J := String) ⟨id, id, (7, "docjson", "metajson"), fun _ => ("d", "m")⟩
        (CacheKeySchema.make (some "cs:dev")) 604800 1000 [] .latest true false).1
      = .ok "docjson" ∧
    (AppConfigCacheDAO.get (J := String) ⟨id, id, (7, "docjson", "metajson"), fun _ => ("d", "m")⟩
        (CacheKeySchema.make (some "cs:dev")) 604800 1000 [] .latest true false).2.1.lookup
        "cache:cs:dev:appconfig:v7"
      = some ⟨.str "docjson", some 605800⟩ ∧
    (AppConfigCacheDAO.get (J := String) ⟨id, id, (7, "docjson", "metajson"), fun _ => ("d", "m")⟩
        (CacheKeySchema.make (some "cs:dev")) 604800 1000 [] .latest true false).2.1.lookup
        "cache:cs:dev:appconfig:latest"
      = some ⟨.str "docjson", some 605800⟩ ∧
    (AppConfigCacheDAO.get (J := String) ⟨id, id, (7, "docjson", "metajson"), fun _ => ("d", "m")⟩
        (CacheKeySchema.make (some "cs:dev")) 604800 1000 [] .latest true false).2.1.lookup
        "cache:cs:dev:appconfig:latest:metadata"
      = some ⟨.str "metajson", some 605800⟩ := by
  have h := cache_get_latest_miss_with_pull_warms_four_keys
    (J := String) ⟨id, id, (7, "docjson", "metajson"), fun _ => ("d", "m")⟩
    (CacheKeySchema.make (some "cs:dev")) 604800 1000 [] rfl
  refine ⟨h.1, ?_, ?_, ?_⟩
  · exact h.2.2.1.trans rfl
  · exact ((h.2.2.2.2.1.trans h.2.2.1).trans rfl)
  · exact ((h.2.2.2.2.2.1.trans h.2.2.2.1).trans rfl)

/-- **C2.** For every version argument and every prior cache state, `get`
with `force=true` fetches from the remote fetcher (the result is the fresh
fetch, independent of any cached value), performs the warm-up write, and
returns the freshly fetched document; and when the requested version is an
explicit integer, the warm-up writes exactly the 2 versioned keys and
leaves the `latest` document and `latest` metadata keys unchanged. -/
theorem cache_get_force_always_fetches_and_warms {J : Type}
    (ctx : AppConfigCtx J) (cks : CacheKeySchema) (ttl now : Nat)
    (s : RedisState) (version : VersionArg) (pull : Bool) :
    (AppConfigCacheDAO.get ctx cks ttl now s version pull true).1
      = .ok (match version with
             | .latest => ctx.fetchLatest.2.1
             | .num v => (ctx.fetchVersion v).1) ∧
    (AppConfigCacheDAO.get ctx cks ttl now s version pull true).2.2 = 1 ∧
    (AppConfigCacheDAO.get ctx cks ttl now s version pull true).2.1
      = AppConfigCacheDAO.warm_up_cache ctx cks ttl now s
          (match version with | .latest => ctx.fetchLatest.1 | .num v => v)
          (match version with | .latest => ctx.fetchLatest.2.1 | .num v => (ctx.fetchVersion v).1)
          (match version with | .latest => ctx.fetchLatest.2.2 | .num v => (ctx.fetchVersion v).2)
          version.isLatest ∧
    (∀ v : Int, version = .num v →
      (AppConfigCacheDAO.get ctx cks ttl now s version pull true).2.1.lookup
          (cks.appconfig_version_key v)
        = some ⟨.str (ctx.dumps (ctx.fetchVersion v).1), some (now + ttl)⟩ ∧
      (AppConfigCacheDAO.get ctx cks ttl now s version pull true).2.1.lookup
          (cks.appconfig_metadata_key v)
        = some ⟨.str (ctx.dumps (ctx.fetchVersion v).2), some (now + ttl)⟩ ∧
      (∀ k, k ≠ cks.appconfig_version_key v → k ≠ cks.appconfig_metadata_key v →
        (AppConfigCacheDAO.get ctx cks ttl now s version pull true).2.1.lookup k
          = s.lookup k) ∧
      (AppConfigCacheDAO.get ctx cks ttl now s version pull true).2.1.lookup
          cks.appconfig_latest_key = s.lookup cks.appconfig_latest_key ∧
      (AppConfigCacheDAO.get ctx cks ttl now s version pull true).2.1.lookup
          cks.appconfig_latest_metadata_key
        = s.lookup cks.appconfig_latest_metadata_key) := by
  cases version with
  | latest =>
    refine ⟨rfl, rfl, rfl, ?_⟩
    intro v hv
    cases hv
  | num v0 =>
    refine ⟨rfl, rfl, rfl, ?_⟩
    intro v hv
    cases hv
    have hget : (AppConfigCacheDAO.get ctx cks ttl now s (.num v0) pull true).2.1
        = AppConfigCacheDAO.warm_up_cache ctx cks ttl now s v0
            (ctx.fetchVersion v0).1 (ctx.fetchVersion v0).2 false := rfl
    have hspec := warm_up_cache_versioned_spec ctx cks ttl now s v0
      (ctx.fetchVersion v0).1 (ctx.fetchVersion v0).2
    rw [hget]
    exact ⟨hspec.1, hspec.2.1,
      hspec.2.2,
      hspec.2.2 cks.appconfig_latest_key
        (cks.vkey_ne_latest v0).symm (cks.mkey_ne_latest v0).symm,
      hspec.2.2 cks.appconfig_latest_metadata_key
        (cks.vkey_ne_latest_meta v0).symm (cks.mkey_ne_latest_meta v0).symm⟩

/-- Witness for C2: `get(9, force=true)` on a cache already holding a
`latest` document fetches, writes `v9` and `v9:metadata`, and leaves the
`latest` key unchanged. -/
theorem cache_get_force_always_fetches_and_warms_witness :
    (AppConfigCacheDAO.get (J := String)
        ⟨id, id, (7, "ld", "lm"), fun _ => ("d9", "m9")⟩
        (CacheKeySchema.make (some "app")) 604800 1000
        [("cache:app:appconfig:latest", ⟨.str "old", none⟩)] (.num 9) true true).1
      = .ok "d9" ∧
    (AppConfigCacheDAO.get (J := String)
        ⟨id, id, (7, "ld", "lm"), fun _ => ("d9", "m9")⟩
        (CacheKeySchema.make (some "app")) 604800 1000
        [("cache:app:appconfig:latest", ⟨.str "old", none⟩)] (.num 9) true true).2.1.lookup
        "cache:app:appconfig:v9"
      = some ⟨.str "d9", some 605800⟩ ∧
    (AppConfigCacheDAO.get (J := String)
        ⟨id, id, (7, "ld", "lm"), fun _ => ("d9", "m9")⟩
        (CacheKeySchema.make (some "app")) 604800 1000
        [("cache:app:appconfig:latest", ⟨.str "old", none⟩)] (.num 9) true true).2.1.lookup
        "cache:app:appconfig:latest"
      = some ⟨.str "old", none⟩ := by
  have h := cache_get_force_always_fetches_and_warms (J := String)
    ⟨id, id, (7, "ld", "lm"), fun _ => ("d9", "m9")⟩
    (CacheKeySchema.make (some "app")) 604800 1000
    [("cache:app:appconfig:latest", ⟨.str "old", none⟩)] (.num 9) true
  have h9 := h.2.2.2 9 rfl
  refine ⟨h.1, ?_, ?_⟩
  · exact h9.1.trans rfl
  · exact (h9.2.2.2.1.trans rfl).trans rfl

end CloudShortener
